import Mathlib

/-!
Verification of FawltyDeps against its specification.

The development shallowly embeds the declared-dependency extraction pipeline
(`fawltydeps/extract_dependencies.py`) and the reconciliation engine.  Python
generators are modelled as pure functions returning the list of records they
deliver before termination, together with an optional uncaught exception;
records yielded before an exception is raised stay delivered, matching the
semantics of consuming a Python generator.
-/

set_option maxHeartbeats 1000000

namespace FawltyDeps

/-- Modelled from the spec: the `Location` record type of `fawltydeps/types.py`
(the module is not among the sources): a file path (or synthetic marker) plus
an optional line number, immutable, compared by value. -/
structure Location where
  path : String
  lineno : Option Nat := none
deriving DecidableEq

/-- Modelled from the spec: the `ParsedImport` record type of
`fawltydeps/types.py` (not among the sources): an imported name as written,
plus the location of the import occurrence. -/
structure ParsedImport where
  name : String
  location : Location
deriving DecidableEq

/-- Modelled from the spec: the `DeclaredDependency` record type of
`fawltydeps/types.py` (not among the sources): a declared package name plus
the location of the declaration occurrence. -/
structure DeclaredDependency where
  name : String
  location : Location
deriving DecidableEq

/-- Modelled from the spec: the `UndeclaredDependency` record type of
`fawltydeps/types.py` (not among the sources): one distinct imported name with
no matching declared dependency, with its ordered import occurrences. -/
structure UndeclaredDependency where
  name : String
  occurrences : List ParsedImport
deriving DecidableEq

/-- Modelled from the spec: the `UnusedDependency` record type of
`fawltydeps/types.py` (not among the sources): one distinct declared name with
no matching import, with its ordered declaration occurrences. -/
structure UnusedDependency where
  name : String
  occurrences : List DeclaredDependency
deriving DecidableEq

/-- Distinct names of a list in first-seen order (spec 4.7 steps 1 and 2:
group by name "preserving first-seen order of distinct names"). -/
def firstSeen : List String → List String
  | [] => []
  | n :: rest => n :: (firstSeen rest).filter fun m => decide (m ≠ n)

/-- Modelled from the spec: `compare_imports_to_dependencies`
(`fawltydeps/check.py`, which is not among the sources; only its test file
is), following spec section 4.7 word for word: group imports and declared
records by name in first-seen order; report every import name that is neither
declared nor ignored, with its occurrences, and every declared name that is
neither imported nor ignored, with its occurrences. -/
def compare_imports_to_dependencies (imports : List ParsedImport)
    (dependencies : List DeclaredDependency)
    (ignoredUnused ignoredUndeclared : List String) :
    List UndeclaredDependency × List UnusedDependency :=
  let importNames := firstSeen (imports.map (·.name))
  let declaredNames := firstSeen (dependencies.map (·.name))
  let undeclared :=
    (importNames.filter fun n =>
        decide (¬ n ∈ declaredNames ∧ ¬ n ∈ ignoredUndeclared)).map
      fun n => UndeclaredDependency.mk n (imports.filter fun i => decide (i.name = n))
  let unused :=
    (declaredNames.filter fun n =>
        decide (¬ n ∈ importNames ∧ ¬ n ∈ ignoredUnused)).map
      fun n => UnusedDependency.mk n (dependencies.filter fun d => decide (d.name = n))
  (undeclared, unused)

theorem mem_firstSeen (n : String) : ∀ l : List String, n ∈ firstSeen l ↔ n ∈ l := by
  intro l
  induction l with
  | nil => simp [firstSeen]
  | cons m rest ih =>
    rw [firstSeen]
    by_cases h : n = m
    · subst h; simp
    · simp only [List.mem_cons, h, false_or]
      rw [List.mem_filter, ih]
      simp [h]

theorem nodup_firstSeen : ∀ l : List String, (firstSeen l).Nodup := by
  intro l
  induction l with
  | nil => simp [firstSeen]
  | cons m rest ih =>
    rw [firstSeen]
    refine List.nodup_cons.mpr ⟨?_, ih.filter _⟩
    intro hmem
    rw [List.mem_filter] at hmem
    simp at hmem

/-- Names of the undeclared output are the import names filtered by the
non-declared, non-ignored condition. -/
theorem undeclared_names (imports : List ParsedImport)
    (dependencies : List DeclaredDependency) (iU iD : List String) :
    (compare_imports_to_dependencies imports dependencies iU iD).1.map (·.name) =
      (firstSeen (imports.map (·.name))).filter fun n =>
        decide (¬ n ∈ firstSeen (dependencies.map (·.name)) ∧ ¬ n ∈ iD) := by
  simp only [compare_imports_to_dependencies, List.map_map]
  exact List.map_id _

/-- Names of the unused output are the declared names filtered by the
non-imported, non-ignored condition. -/
theorem unused_names (imports : List ParsedImport)
    (dependencies : List DeclaredDependency) (iU iD : List String) :
    (compare_imports_to_dependencies imports dependencies iU iD).2.map (·.name) =
      (firstSeen (dependencies.map (·.name))).filter fun n =>
        decide (¬ n ∈ firstSeen (imports.map (·.name)) ∧ ¬ n ∈ iU) := by
  simp only [compare_imports_to_dependencies, List.map_map]
  exact List.map_id _

/-- C1: for every inputs to the reconciliation engine, a name in
`ignoredUnused` never appears in the unused list, a name in
`ignoredUndeclared` never appears in the undeclared list, a name occurring in
both the imports and the declared sequences appears in neither output list
regardless of ignore-list membership, and ignore lists never cause a name to
be reported that would not be reported with empty ignore lists. -/
theorem c1_ignore_lists_only_suppress (imports : List ParsedImport)
    (dependencies : List DeclaredDependency) (iU iD : List String) (n : String) :
    (n ∈ iU →
      ¬ n ∈ (compare_imports_to_dependencies imports dependencies iU iD).2.map (·.name)) ∧
    (n ∈ iD →
      ¬ n ∈ (compare_imports_to_dependencies imports dependencies iU iD).1.map (·.name)) ∧
    (n ∈ imports.map (·.name) → n ∈ dependencies.map (·.name) →
      ¬ n ∈ (compare_imports_to_dependencies imports dependencies iU iD).1.map (·.name) ∧
      ¬ n ∈ (compare_imports_to_dependencies imports dependencies iU iD).2.map (·.name)) ∧
    (n ∈ (compare_imports_to_dependencies imports dependencies iU iD).1.map (·.name) →
      n ∈ (compare_imports_to_dependencies imports dependencies [] []).1.map (·.name)) ∧
    (n ∈ (compare_imports_to_dependencies imports dependencies iU iD).2.map (·.name) →
      n ∈ (compare_imports_to_dependencies imports dependencies [] []).2.map (·.name)) := by
  simp only [undeclared_names, unused_names, List.mem_filter, decide_eq_true_eq,
    mem_firstSeen, List.not_mem_nil, not_false_iff, and_true]
  tauto

/-- C1 witness: with `black` declared but ignored as unused it is not reported,
and a name both imported and declared is reported in neither list even when it
is on an ignore list. -/
theorem c1_ignore_lists_only_suppress_witness :
    (¬ "black" ∈ (compare_imports_to_dependencies []
        [⟨"black", ⟨"foo", none⟩⟩] ["black"] []).2.map (·.name)) ∧
    (¬ "isort" ∈ (compare_imports_to_dependencies [⟨"isort", ⟨"s", none⟩⟩]
        [⟨"isort", ⟨"foo", none⟩⟩] ["isort"] []).1.map (·.name) ∧
     ¬ "isort" ∈ (compare_imports_to_dependencies [⟨"isort", ⟨"s", none⟩⟩]
        [⟨"isort", ⟨"foo", none⟩⟩] ["isort"] []).2.map (·.name)) :=
  ⟨(c1_ignore_lists_only_suppress [] [⟨"black", ⟨"foo", none⟩⟩] ["black"] [] "black").1
      (by decide),
   (c1_ignore_lists_only_suppress [⟨"isort", ⟨"s", none⟩⟩] [⟨"isort", ⟨"foo", none⟩⟩]
      ["isort"] [] "isort").2.2.1 (by decide) (by decide)⟩

/-- C2: with disjoint import and declared name sets and empty ignore lists,
the undeclared output names are exactly the import names (in first-seen
order) and the unused output names are exactly the declared names; the
all-empty input returns the pair of two empty lists. -/
theorem c2_disjoint_exact (imports : List ParsedImport)
    (dependencies : List DeclaredDependency)
    (hdisj : ∀ n, n ∈ imports.map (·.name) → ¬ n ∈ dependencies.map (·.name)) :
    (compare_imports_to_dependencies imports dependencies [] []).1.map (·.name) =
        firstSeen (imports.map (·.name)) ∧
    (compare_imports_to_dependencies imports dependencies [] []).2.map (·.name) =
        firstSeen (dependencies.map (·.name)) ∧
    (∀ n, n ∈ (compare_imports_to_dependencies imports dependencies [] []).1.map (·.name) ↔
        n ∈ imports.map (·.name)) ∧
    (∀ n, n ∈ (compare_imports_to_dependencies imports dependencies [] []).2.map (·.name) ↔
        n ∈ dependencies.map (·.name)) ∧
    compare_imports_to_dependencies [] [] [] [] = ([], []) := by
  have h1 : (compare_imports_to_dependencies imports dependencies [] []).1.map (·.name) =
      firstSeen (imports.map (·.name)) := by
    rw [undeclared_names]
    apply List.filter_eq_self.mpr
    intro n hn
    rw [mem_firstSeen] at hn
    simp [mem_firstSeen, hdisj n hn]
  have h2 : (compare_imports_to_dependencies imports dependencies [] []).2.map (·.name) =
      firstSeen (dependencies.map (·.name)) := by
    rw [unused_names]
    apply List.filter_eq_self.mpr
    intro n hn
    rw [mem_firstSeen] at hn
    have : ¬ n ∈ imports.map (·.name) := fun hmem => hdisj n hmem hn
    simp [mem_firstSeen, this]
  refine ⟨h1, h2, ?_, ?_, rfl⟩
  · intro n; rw [h1, mem_firstSeen]
  · intro n; rw [h2, mem_firstSeen]

/-- C2 witness: disjoint concrete inputs give exactly the import and declared
names, and the all-empty input gives two empty lists. -/
theorem c2_disjoint_exact_witness :
    (compare_imports_to_dependencies [⟨"pandas", ⟨"s", none⟩⟩]
        [⟨"scipy", ⟨"foo", none⟩⟩] [] []).1.map (·.name) = ["pandas"] ∧
    (compare_imports_to_dependencies [⟨"pandas", ⟨"s", none⟩⟩]
        [⟨"scipy", ⟨"foo", none⟩⟩] [] []).2.map (·.name) = ["scipy"] ∧
    compare_imports_to_dependencies [] [] [] [] = ([], []) := by
  have h := c2_disjoint_exact [⟨"pandas", ⟨"s", none⟩⟩] [⟨"scipy", ⟨"foo", none⟩⟩]
    (by decide)
  exact ⟨h.1, h.2.1, h.2.2.2.2⟩

/-- C3: in every reconciliation output, entry names are unique within each
list, each entry's occurrences are exactly the input records carrying the
entry's name in their original relative order (so repeated occurrences of one
name are grouped into exactly one entry, preserving order), and every
occurrence carries the same name as its entry. -/
theorem c3_entry_invariants (imports : List ParsedImport)
    (dependencies : List DeclaredDependency) (iU iD : List String) :
    ((compare_imports_to_dependencies imports dependencies iU iD).1.map (·.name)).Nodup ∧
    ((compare_imports_to_dependencies imports dependencies iU iD).2.map (·.name)).Nodup ∧
    (∀ e ∈ (compare_imports_to_dependencies imports dependencies iU iD).1,
      e.occurrences = imports.filter fun i => decide (i.name = e.name)) ∧
    (∀ e ∈ (compare_imports_to_dependencies imports dependencies iU iD).2,
      e.occurrences = dependencies.filter fun d => decide (d.name = e.name)) ∧
    (∀ e ∈ (compare_imports_to_dependencies imports dependencies iU iD).1,
      ∀ o ∈ e.occurrences, o.name = e.name) ∧
    (∀ e ∈ (compare_imports_to_dependencies imports dependencies iU iD).2,
      ∀ o ∈ e.occurrences, o.name = e.name) := by
  have hocc1 : ∀ e ∈ (compare_imports_to_dependencies imports dependencies iU iD).1,
      e.occurrences = imports.filter fun i => decide (i.name = e.name) := by
    intro e he
    simp only [compare_imports_to_dependencies, List.mem_map] at he
    obtain ⟨n, _, rfl⟩ := he
    rfl
  have hocc2 : ∀ e ∈ (compare_imports_to_dependencies imports dependencies iU iD).2,
      e.occurrences = dependencies.filter fun d => decide (d.name = e.name) := by
    intro e he
    simp only [compare_imports_to_dependencies, List.mem_map] at he
    obtain ⟨n, _, rfl⟩ := he
    rfl
  refine ⟨?_, ?_, hocc1, hocc2, ?_, ?_⟩
  · rw [undeclared_names]
    exact (nodup_firstSeen _).filter _
  · rw [unused_names]
    exact (nodup_firstSeen _).filter _
  · intro e he o ho
    rw [hocc1 e he, List.mem_filter] at ho
    exact of_decide_eq_true ho.2
  · intro e he o ho
    rw [hocc2 e he, List.mem_filter] at ho
    exact of_decide_eq_true ho.2

/-- C3 witness: with two `numpy` imports from different locations and no
declaration of `numpy`, the single undeclared entry for `numpy` carries both
occurrences in their original relative order. -/
theorem c3_entry_invariants_witness :
    (UndeclaredDependency.mk "numpy"
        [⟨"numpy", ⟨"s", none⟩⟩, ⟨"numpy", ⟨"my_file.py", some 3⟩⟩]).occurrences =
      [ParsedImport.mk "numpy" ⟨"s", none⟩,
        ParsedImport.mk "numpy" ⟨"my_file.py", some 3⟩].filter
        (fun i => decide (i.name = (UndeclaredDependency.mk "numpy"
          [⟨"numpy", ⟨"s", none⟩⟩, ⟨"numpy", ⟨"my_file.py", some 3⟩⟩]).name)) :=
  (c3_entry_invariants
      [⟨"numpy", ⟨"s", none⟩⟩, ⟨"numpy", ⟨"my_file.py", some 3⟩⟩] [] [] []).2.2.1
    (UndeclaredDependency.mk "numpy"
      [⟨"numpy", ⟨"s", none⟩⟩, ⟨"numpy", ⟨"my_file.py", some 3⟩⟩])
    (by decide)

/-! ### Requirements-file parsing (spec 4.1 / 4.2)

`parse_requirements_contents` (src/fawltydeps/extract_dependencies.py lines
35-46) delegates the actual line parsing to `pkg_resources.parse_requirements`,
an external collaborator whose code is not among the sources.  The model below
is therefore written from the spec's words: split the text into physical
lines; drop blank lines and `#` comment lines; drop inline ` #` comments; join
line continuations (a trailing backslash merges a line with the next one);
a remaining line parses iff it starts with an alphanumeric name character, and
its canonical name is the lowercased maximal run of name characters; any other
line (a directive such as `-r other.txt`, or a malformed specifier) is
skipped without a record.  The model is a total function: no line ever makes
it raise. -/

def isWS (c : Char) : Bool := c = ' ' || c = '\t' || c = '\r'

def trimChars (cs : List Char) : List Char :=
  ((cs.dropWhile isWS).reverse.dropWhile isWS).reverse

/-- Strip leading and trailing whitespace. -/
def strTrim (s : String) : String := ⟨trimChars s.data⟩

def splitLinesChars : List Char → List (List Char)
  | [] => [[]]
  | c :: rest =>
    if c = '\n' then [] :: splitLinesChars rest
    else
      match splitLinesChars rest with
      | [] => [[c]]
      | l :: ls => (c :: l) :: ls

/-- Split a text into its physical lines. -/
def splitLines (s : String) : List String :=
  (splitLinesChars s.data).map fun cs => ⟨cs⟩

/-- Modelled from the spec: strip each line and drop blank lines and `#`
comment lines. -/
def yield_lines (lines : List String) : List String :=
  (lines.map strTrim).filter fun l => decide (l.data ≠ [] ∧ l.data.head? ≠ some '#')

def dropCommentChars : List Char → List Char
  | [] => []
  | ' ' :: '#' :: _ => []
  | c :: rest => c :: dropCommentChars rest

/-- Modelled from the spec: drop an inline ` #` comment (a hash without a
preceding space may be part of a URL and is kept). -/
def drop_comment (s : String) : String := strTrim ⟨dropCommentChars s.data⟩

/-- Does the line end with a backslash, marking a line continuation? -/
def endsBackslash (s : String) : Bool := decide (s.data.getLast? = some '\\')

/-- Drop the final character (the continuation backslash). -/
def dropLastChar (s : String) : String := ⟨s.data.dropLast⟩

/-- Modelled from the spec: join line continuations; `pending` carries the
prefix accumulated from earlier continuation lines.  A dangling continuation
at the end of input produces no line. -/
def join_continuation (pending : Option String) : List String → List String
  | [] => []
  | l :: rest =>
    let line := match pending with | none => l | some p => p ++ l
    if endsBackslash line then join_continuation (some (dropLastChar line)) rest
    else line :: join_continuation none rest

def isNameChar (c : Char) : Bool := c.isAlphanum || c = '.' || c = '-' || c = '_'

/-- Modelled from the spec: a line parses as a requirement specifier iff it
starts with an alphanumeric character; its canonical key is the lowercased
maximal run of name characters (extras, version specifiers and environment
markers after the name are discarded).  Directive lines (`-r`, `-e`,
`--option`) and otherwise malformed lines yield `none`. -/
def requirement_key (l : String) : Option String :=
  match l.data with
  | [] => none
  | c :: _ =>
    if c.isAlphanum then some ⟨(l.data.takeWhile isNameChar).map Char.toLower⟩
    else none

/-- Requirement keys of a list of physical lines. -/
def parse_req_lines (lines : List String) : List String :=
  (join_continuation none ((yield_lines lines).map drop_comment)).filterMap
    requirement_key

/-- Modelled from the spec: `pkg_resources.parse_requirements`, yielding the
canonical lowercase keys of the requirement lines of a text. -/
def parse_requirements (text : String) : List String :=
  parse_req_lines (splitLines text)

/-- `parse_requirements_contents` of src/fawltydeps/extract_dependencies.py:
one `DeclaredDependency` per parsed requirement, all at the given path. -/
def parse_requirements_contents (text : String) (path_hint : Location) :
    List DeclaredDependency :=
  (parse_requirements text).map fun n => DeclaredDependency.mk n path_hint

/-- Per-line outcome: the requirement key a single raw line contributes. -/
def lineKey (l : String) : Option String := requirement_key (drop_comment (strTrim l))

theorem yield_lines_append (a b : List String) :
    yield_lines (a ++ b) = yield_lines a ++ yield_lines b := by
  simp [yield_lines, List.filter_append]

theorem yield_lines_skip (bad : String)
    (h : strTrim bad = "" ∨ (strTrim bad).data.head? = some '#') :
    yield_lines [bad] = [] := by
  have hp : decide ((strTrim bad).data ≠ [] ∧ (strTrim bad).data.head? ≠ some '#')
      = false := by
    simp only [decide_eq_false_iff_not, not_and_or, not_not]
    rcases h with h | h
    · exact Or.inl (by rw [h])
    · exact Or.inr h
  simp only [yield_lines, List.map_cons, List.map_nil]
  rw [List.filter_cons, hp]
  simp

theorem join_continuation_id (L : List String)
    (h : ∀ l ∈ L, endsBackslash l = false) :
    join_continuation none L = L := by
  induction L with
  | nil => rfl
  | cons l rest ih =>
    have h0 : endsBackslash l = false := h l (List.mem_cons_self l rest)
    have ih' := ih fun x hx => h x (List.mem_cons_of_mem _ hx)
    simp [join_continuation, h0, ih']

theorem filterMap_filter_of_none {α β : Type} (p : α → Bool) (g : α → Option β) :
    ∀ X : List α, (∀ x ∈ X, p x = false → g x = none) →
      (X.filter p).filterMap g = X.filterMap g := by
  intro X h
  induction X with
  | nil => rfl
  | cons x rest ih =>
    have ih' := ih fun y hy => h y (List.mem_cons_of_mem _ hy)
    by_cases hp : p x = true
    · simp [List.filter_cons, hp, List.filterMap_cons, ih']
    · have hx : p x = false := by simpa using hp
      have hg : g x = none := h x (List.mem_cons_self x rest) hx
      simp [List.filter_cons, hx, List.filterMap_cons, hg, ih']

theorem dropCommentChars_hash (cs : List Char) :
    dropCommentChars ('#' :: cs) = '#' :: dropCommentChars cs := rfl

theorem trimChars_hash (cs : List Char) :
    ∃ Y, trimChars ('#' :: cs) = '#' :: Y := by
  unfold trimChars
  have h1 : List.dropWhile isWS ('#' :: cs) = '#' :: cs := by
    rw [List.dropWhile_cons_of_neg]
    simp [isWS]
  rw [h1, List.reverse_cons, List.dropWhile_append]
  by_cases he : (cs.reverse.dropWhile isWS).isEmpty
  · rw [if_pos he]
    exact ⟨[], rfl⟩
  · rw [if_neg he, List.reverse_append]
    exact ⟨_, rfl⟩

theorem requirement_key_hash (Y : List Char) :
    requirement_key ⟨'#' :: Y⟩ = none := rfl

/-- A line that the blank-or-comment filter drops would contribute no record
anyway. -/
theorem lineKey_of_skipped (t : String)
    (h : decide (t.data ≠ [] ∧ t.data.head? ≠ some '#') = false) :
    requirement_key (drop_comment t) = none := by
  rw [decide_eq_false_iff_not, not_and_or, not_not, not_not] at h
  rcases h with h | h
  · show requirement_key (strTrim ⟨dropCommentChars t.data⟩) = none
    rw [h]
    rfl
  · obtain ⟨cs, hcs⟩ : ∃ cs, t.data = '#' :: cs := by
      cases hd : t.data with
      | nil => rw [hd] at h; simp at h
      | cons c cs =>
        rw [hd] at h
        simp only [List.head?] at h
        exact ⟨cs, by rw [Option.some_inj] at h; rw [h]⟩
    show requirement_key (strTrim ⟨dropCommentChars t.data⟩) = none
    rw [hcs, dropCommentChars_hash]
    obtain ⟨Y, hY⟩ := trimChars_hash (dropCommentChars cs)
    show requirement_key ⟨trimChars ('#' :: dropCommentChars cs)⟩ = none
    rw [hY]
    exact requirement_key_hash Y

/-- When no processed line carries a continuation backslash, every raw line
contributes independently through `lineKey`. -/
theorem parse_req_lines_eq_filterMap (lines : List String)
    (hnb : ∀ l ∈ lines, endsBackslash (drop_comment (strTrim l)) = false) :
    parse_req_lines lines = lines.filterMap lineKey := by
  have hnb' : ∀ l ∈ (yield_lines lines).map drop_comment, endsBackslash l = false := by
    intro l hl
    obtain ⟨t, ht, rfl⟩ := List.mem_map.mp hl
    have : t ∈ lines.map strTrim := List.mem_of_mem_filter ht
    obtain ⟨u, hu, rfl⟩ := List.mem_map.mp this
    exact hnb u hu
  show (join_continuation none ((yield_lines lines).map drop_comment)).filterMap
      requirement_key = lines.filterMap lineKey
  rw [join_continuation_id _ hnb', List.filterMap_map]
  show ((lines.map strTrim).filter _).filterMap (fun t => requirement_key (drop_comment t))
      = lines.filterMap lineKey
  rw [filterMap_filter_of_none _ _ _ (fun t _ hp => lineKey_of_skipped t hp),
    List.filterMap_map]
  rfl

/-- C4: the requirements parser skips blank lines, `#` comment lines, handles
line continuations, and skips directive or otherwise unparsable lines, never
emitting a record for the skipped line while the remaining lines of the same
text still produce their records (the model is a total function, so no input
makes it raise). -/
theorem c4_requirements_tolerant :
    (∀ pre post bad, strTrim bad = "" ∨ (strTrim bad).data.head? = some '#' →
      parse_req_lines (pre ++ bad :: post) = parse_req_lines (pre ++ post)) ∧
    (∀ lines, (∀ l ∈ lines, endsBackslash (drop_comment (strTrim l)) = false) →
      parse_req_lines lines = lines.filterMap lineKey) ∧
    (∀ pre post bad,
      (∀ l ∈ pre ++ bad :: post, endsBackslash (drop_comment (strTrim l)) = false) →
      lineKey bad = none →
      parse_req_lines (pre ++ bad :: post) = parse_req_lines (pre ++ post)) ∧
    (∀ l nxt rest, endsBackslash l = true →
      join_continuation none (l :: nxt :: rest) =
        join_continuation (some (dropLastChar l)) (nxt :: rest)) := by
  refine ⟨?_, parse_req_lines_eq_filterMap, ?_, ?_⟩
  · intro pre post bad h
    have hy : yield_lines (pre ++ bad :: post) = yield_lines (pre ++ post) := by
      have : pre ++ bad :: post = (pre ++ [bad]) ++ post := by simp
      rw [this, yield_lines_append, yield_lines_append, yield_lines_append,
        yield_lines_skip bad h]
      simp
    show (join_continuation none ((yield_lines (pre ++ bad :: post)).map
        drop_comment)).filterMap requirement_key = _
    rw [hy]
    rfl
  · intro pre post bad hnb hbad
    have hnb' : ∀ l ∈ pre ++ post, endsBackslash (drop_comment (strTrim l)) = false := by
      intro l hl
      rcases List.mem_append.mp hl with h | h
      · exact hnb l (List.mem_append.mpr (Or.inl h))
      · exact hnb l (by simp [h])
    rw [parse_req_lines_eq_filterMap _ hnb, parse_req_lines_eq_filterMap _ hnb',
      List.filterMap_append, List.filterMap_append, List.filterMap_cons, hbad]
  · intro l nxt rest h
    simp [join_continuation, h]

/-- C4 witness: a text with a blank line, a comment line, a `-r` directive
line, an unparsable line and a continuation still yields exactly the records
of its well-formed requirement lines. -/
theorem c4_requirements_tolerant_witness :
    parse_req_lines ["pandas", "-r other.txt", "numpy>=1.0"] =
      parse_req_lines ["pandas", "numpy>=1.0"] ∧
    parse_req_lines ["pandas", "", "numpy>=1.0"] =
      parse_req_lines ["pandas", "numpy>=1.0"] ∧
    parse_req_lines ["pandas", "# comment", "numpy>=1.0"] =
      parse_req_lines ["pandas", "numpy>=1.0"] :=
  ⟨c4_requirements_tolerant.2.2.1 ["pandas"] ["numpy>=1.0"] "-r other.txt"
      (by decide) (by decide),
   c4_requirements_tolerant.1 ["pandas"] ["numpy>=1.0"] "" (by decide),
   c4_requirements_tolerant.1 ["pandas"] ["numpy>=1.0"] "# comment" (by decide)⟩

/-! ### setup.py parsing (`parse_setup_contents`, extract_dependencies.py 49-108)

The Python syntax tree produced by `ast.parse` is embedded as far as
`parse_setup_contents` inspects it.  `ast.walk` visits nodes in breadth-first
order; only `ast.Expr` statement nodes can satisfy `_is_setup_function_call`,
and in Python no statement is nested inside an expression, so the walk is
modelled as a breadth-first traversal of the statement tree.  Generators are
modelled as the records delivered before termination plus an optional uncaught
exception; `DependencyParsingError` is caught per keyword (a logged warning),
while a `TypeError` (from handing a non-string to
`pkg_resources.parse_requirements`, which iterates its argument) is not in any
except clause and escapes. -/

/-- Python literal constants (`ast.Constant` values). -/
inductive PyLiteral where
  | str (s : String)
  | int (n : Int)
  | boolean (b : Bool)
  | noneVal
deriving DecidableEq

/-- Python expression nodes, as far as `parse_setup_contents` inspects them.
A `call` keeps its keyword arguments as pairs of `keyword.arg` (none for
`**kwargs`) and `keyword.value`. -/
inductive PyExpr where
  | constant (v : PyLiteral)
  | name (id : String)
  | listExpr (elts : List PyExpr)
  | dictExpr (keys : List PyExpr) (values : List PyExpr)
  | call (func : PyExpr) (args : List PyExpr) (keywords : List (Option String × PyExpr))
  | other

/-- Python statement nodes: an expression statement (`ast.Expr`), compound
statements carrying nested statement bodies, assignments, and anything else. -/
inductive PyStmt where
  | expr (value : PyExpr)
  | functionDef (body : List PyStmt)
  | ifStmt (body orelse : List PyStmt)
  | assign (value : PyExpr)
  | other

mutual

def stmtSize : PyStmt → Nat
  | .functionDef body => 1 + stmtsSize body
  | .ifStmt body orelse => 1 + stmtsSize body + stmtsSize orelse
  | _ => 1

def stmtsSize : List PyStmt → Nat
  | [] => 0
  | s :: rest => stmtSize s + stmtsSize rest

end

/-- The statement children of a statement, in `ast.iter_child_nodes` order. -/
def stmtChildren : PyStmt → List PyStmt
  | .functionDef body => body
  | .ifStmt body orelse => body ++ orelse
  | _ => []

theorem stmtsSize_append (a b : List PyStmt) :
    stmtsSize (a ++ b) = stmtsSize a + stmtsSize b := by
  induction a with
  | nil => simp [stmtsSize]
  | cons s rest ih => simp [stmtsSize, ih]; omega

theorem stmtsSize_children_lt (s : PyStmt) : stmtsSize (stmtChildren s) < stmtSize s := by
  cases s <;> simp [stmtChildren, stmtSize, stmtsSize, stmtsSize_append]

theorem stmtsSize_queue_lt (s : PyStmt) (rest : List PyStmt) :
    stmtsSize (rest ++ stmtChildren s) < stmtsSize (s :: rest) := by
  have h1 := stmtsSize_children_lt s
  rw [stmtsSize_append]
  simp only [stmtsSize]
  omega

/-- `_is_setup_function_call`: an expression statement whose value is a call
to the bare name `setup`. -/
def isSetupExprStmt : PyStmt → Bool
  | .expr (.call (.name f) _ _) => decide (f = "setup")
  | _ => false

/-- The first statement matching `_is_setup_function_call` in the
breadth-first order of `ast.walk`. -/
def bfsFirstSetup : List PyStmt → Option PyStmt
  | [] => none
  | s :: rest =>
    if isSetupExprStmt s then some s
    else bfsFirstSetup (rest ++ stmtChildren s)
termination_by q => stmtsSize q
decreasing_by
  exact stmtsSize_queue_lt _ _

/-- All statements of the tree, in breadth-first (level) order. -/
def allStmts : List PyStmt → List PyStmt
  | [] => []
  | s :: rest => s :: allStmts (rest ++ stmtChildren s)
termination_by q => stmtsSize q
decreasing_by
  exact stmtsSize_queue_lt _ _

/-- An exception escaping a parsing helper: `DependencyParsingError` (raised
on a value of an unexpected node kind, carrying the offending node) or a
`TypeError` (a non-string handed to `pkg_resources.parse_requirements`). -/
inductive PyExc where
  | depParsingError (offending : PyExpr)
  | typeError

/-- Element loop of `_extract_deps_from_bottom_level_list`: a string constant
is fed to `parse_requirements_contents`; any other `ast.Constant` passes the
isinstance check, and `pkg_resources.parse_requirements` then raises an
uncaught `TypeError` iterating the non-string; any non-`Constant` node is
skipped silently. -/
def extract_deps_elements (p : Location) : List PyExpr → List DeclaredDependency × Option PyExc
  | [] => ([], none)
  | .constant (.str s) :: rest =>
    let r := extract_deps_elements p rest
    (parse_requirements_contents s p ++ r.1, r.2)
  | .constant _ :: _ => ([], some .typeError)
  | _ :: rest => extract_deps_elements p rest

/-- `_extract_deps_from_bottom_level_list`: a non-list node raises
`DependencyParsingError` carrying the node. -/
def extract_deps_from_bottom_level_list (p : Location) :
    PyExpr → List DeclaredDependency × Option PyExc
  | .listExpr elts => extract_deps_elements p elts
  | e => ([], some (.depParsingError e))

/-- The loop over the values of an `extras_require` dict, inside one `try`
block: records delivered before an exception stay delivered, and the first
exception aborts the remaining values. -/
def extract_extras_values (p : Location) : List PyExpr → List DeclaredDependency × Option PyExc
  | [] => ([], none)
  | v :: rest =>
    match extract_deps_from_bottom_level_list p v with
    | (ds, some e) => (ds, some e)
    | (ds, none) =>
      let r := extract_extras_values p rest
      (ds ++ r.1, r.2)

/-- Outcome of (part of) the setup-call extraction: records delivered,
warnings logged ("Could not parse contents of `keyword.arg`: node"), and an
uncaught exception, if any. -/
structure SetupOutcome where
  deps : List DeclaredDependency
  warnings : List (Option String × PyExpr)
  exc : Option PyExc

/-- One iteration of the keyword loop of `_extract_deps_from_setup_call`,
with its `try`/`except DependencyParsingError` that logs a warning naming the
keyword and the offending node; a `TypeError` is not caught. -/
def processKeyword (p : Location) (kw : Option String × PyExpr) : SetupOutcome :=
  if kw.1 = some "install_requires" then
    match extract_deps_from_bottom_level_list p kw.2 with
    | (ds, some (.depParsingError e)) => ⟨ds, [(kw.1, e)], none⟩
    | (ds, some .typeError) => ⟨ds, [], some .typeError⟩
    | (ds, none) => ⟨ds, [], none⟩
  else if kw.1 = some "extras_require" then
    match kw.2 with
    | .dictExpr _ values =>
      match extract_extras_values p values with
      | (ds, some (.depParsingError e)) => ⟨ds, [(kw.1, e)], none⟩
      | (ds, some .typeError) => ⟨ds, [], some .typeError⟩
      | (ds, none) => ⟨ds, [], none⟩
    | e => ⟨[], [(kw.1, e)], none⟩
  else ⟨[], [], none⟩

/-- `_extract_deps_from_setup_call`: the keyword loop; an uncaught exception
stops the loop, keeping records and warnings already delivered. -/
def extract_deps_from_setup_call (p : Location) :
    List (Option String × PyExpr) → SetupOutcome
  | [] => ⟨[], [], none⟩
  | kw :: rest =>
    let r := processKeyword p kw
    match r.exc with
    | some e => ⟨r.deps, r.warnings, some e⟩
    | none =>
      let r2 := extract_deps_from_setup_call p rest
      ⟨r.deps ++ r2.deps, r.warnings ++ r2.warnings, r2.exc⟩

/-- The keyword arguments of the call held by a setup expression statement. -/
def setupCallKeywords : PyStmt → List (Option String × PyExpr)
  | .expr (.call _ _ kws) => kws
  | _ => []

/-- `parse_setup_contents`: walk the tree, extract from the first statement
matching `_is_setup_function_call`, then stop. -/
def parse_setup_contents (mod : List PyStmt) (p : Location) : SetupOutcome :=
  match bfsFirstSetup mod with
  | none => ⟨[], [], none⟩
  | some s => extract_deps_from_setup_call p (setupCallKeywords s)

theorem bfsFirstSetup_eq_find (q : List PyStmt) :
    bfsFirstSetup q = (allStmts q).find? isSetupExprStmt := by
  induction q using bfsFirstSetup.induct with
  | case1 => rw [bfsFirstSetup, allStmts]; rfl
  | case2 s rest h =>
    rw [bfsFirstSetup, allStmts, if_pos h, List.find?_cons_of_pos _ h]
  | case3 s rest h ih =>
    rw [bfsFirstSetup, allStmts, if_neg h, List.find?_cons_of_neg _ h, ih]

theorem allStmts_extends (q : List PyStmt) : ∃ t, allStmts q = q ++ t := by
  induction q using allStmts.induct with
  | case1 => exact ⟨[], by rw [allStmts]; rfl⟩
  | case2 s rest ih =>
    obtain ⟨t, ht⟩ := ih
    refine ⟨stmtChildren s ++ t, ?_⟩
    rw [allStmts, ht]
    simp

/-- C5 (amended): the setup.py parser extracts dependencies from the first
statement, in the breadth-first order of the whole-tree walk, that is an
expression statement whose value is a call to the bare name `setup`.  All
module-level statements are visited before any nested statement, so when a
top-level match exists the first top-level match is used and every later
`setup()`-shaped call is ignored; when no expression-statement `setup` call
exists anywhere (e.g. only `x = setup(...)`), nothing is extracted.  Contrary
to the original claim, a nested `setup()` expression statement is used when no
top-level one exists (see the counterexample). -/
theorem c5_first_setup_call_bfs (mod : List PyStmt) (p : Location) :
    (∀ s, mod.find? isSetupExprStmt = some s →
      parse_setup_contents mod p = extract_deps_from_setup_call p (setupCallKeywords s)) ∧
    ((allStmts mod).find? isSetupExprStmt = none →
      parse_setup_contents mod p = ⟨[], [], none⟩) ∧
    (parse_setup_contents mod p =
      match (allStmts mod).find? isSetupExprStmt with
      | none => ⟨[], [], none⟩
      | some s => extract_deps_from_setup_call p (setupCallKeywords s)) := by
  have h3 : parse_setup_contents mod p =
      match (allStmts mod).find? isSetupExprStmt with
      | none => ⟨[], [], none⟩
      | some s => extract_deps_from_setup_call p (setupCallKeywords s) := by
    unfold parse_setup_contents
    rw [bfsFirstSetup_eq_find]
  refine ⟨?_, ?_, h3⟩
  · intro s hs
    have hall : (allStmts mod).find? isSetupExprStmt = some s := by
      obtain ⟨t, ht⟩ := allStmts_extends mod
      rw [ht, List.find?_append, hs]
      rfl
    rw [h3, hall]
  · intro h
    rw [h3, h]

/-- C5 witness: in a module with two top-level `setup()` calls, extraction
uses the first one and ignores the second. -/
theorem c5_first_setup_call_bfs_witness :
    parse_setup_contents
      [.expr (.call (.name "setup") []
          [(some "install_requires", .listExpr [.constant (.str "a")])]),
        .expr (.call (.name "setup") []
          [(some "install_requires", .listExpr [.constant (.str "b")])])]
      ⟨"setup.py", none⟩ =
    extract_deps_from_setup_call ⟨"setup.py", none⟩
      (setupCallKeywords (.expr (.call (.name "setup") []
        [(some "install_requires", .listExpr [.constant (.str "a")])]))) :=
  (c5_first_setup_call_bfs
      [.expr (.call (.name "setup") []
          [(some "install_requires", .listExpr [.constant (.str "a")])]),
        .expr (.call (.name "setup") []
          [(some "install_requires", .listExpr [.constant (.str "b")])])]
      ⟨"setup.py", none⟩).1
    (.expr (.call (.name "setup") []
      [(some "install_requires", .listExpr [.constant (.str "a")])]))
    rfl

/-- C5 counterexample: a `setup()` call that is an expression statement nested
inside an `if` block is not a top-level expression statement, yet the parser
extracts its dependencies, contradicting the claim that such a call yields no
dependencies. -/
theorem c5_counterexample_nested_setup :
    parse_setup_contents
      [.ifStmt [.expr (.call (.name "setup") []
          [(some "install_requires", .listExpr [.constant (.str "a")])])] []]
      ⟨"setup.py", none⟩ =
    ⟨[⟨"a", ⟨"setup.py", none⟩⟩], [], none⟩ := by
  simp [parse_setup_contents, bfsFirstSetup, stmtChildren, isSetupExprStmt]
  rfl

theorem extract_deps_from_bottom_level_list_not_list (p : Location) (v : PyExpr)
    (h : ∀ elts, v ≠ PyExpr.listExpr elts) :
    extract_deps_from_bottom_level_list p v = ([], some (.depParsingError v)) := by
  cases v with
  | listExpr elts => exact absurd rfl (h elts)
  | constant w => rfl
  | name i => rfl
  | dictExpr ks vs => rfl
  | call f a k => rfl
  | other => rfl

theorem extract_extras_values_append (p : Location) (pre rest : List PyExpr)
    (h : (extract_extras_values p pre).2 = none) :
    extract_extras_values p (pre ++ rest) =
      ((extract_extras_values p pre).1 ++ (extract_extras_values p rest).1,
        (extract_extras_values p rest).2) := by
  induction pre with
  | nil => simp [extract_extras_values]
  | cons v pre ih =>
    rw [List.cons_append]
    rw [extract_extras_values] at h
    rw [extract_extras_values]
    conv_rhs => rw [extract_extras_values]
    rcases hv : extract_deps_from_bottom_level_list p v with ⟨ds, e⟩
    cases e with
    | some e' =>
      rw [hv] at h
      simp at h
    | none =>
      rw [hv] at h
      simp only at h ⊢
      rw [ih h]
      simp

theorem processKeyword_install (p : Location) (v : PyExpr) :
    processKeyword p (some "install_requires", v) =
      match extract_deps_from_bottom_level_list p v with
      | (ds, some (.depParsingError e)) => ⟨ds, [(some "install_requires", e)], none⟩
      | (ds, some .typeError) => ⟨ds, [], some .typeError⟩
      | (ds, none) => ⟨ds, [], none⟩ := rfl

theorem processKeyword_extras_dict (p : Location) (ks vs : List PyExpr) :
    processKeyword p (some "extras_require", PyExpr.dictExpr ks vs) =
      match extract_extras_values p vs with
      | (ds, some (.depParsingError e)) => ⟨ds, [(some "extras_require", e)], none⟩
      | (ds, some .typeError) => ⟨ds, [], some .typeError⟩
      | (ds, none) => ⟨ds, [], none⟩ := rfl

/-- C6 (amended): if the top-level `extras_require` value is not a literal
mapping, the parser warns (naming the keyword and the offending node), skips
it, and raises nothing; if an individual mapping value is not a literal list,
the parser warns and drops that entry together with every later entry of the
same mapping, while the entries before the offending one keep their emitted
requirements (contrary to the original claim, the later entries are not
processed). -/
theorem c6_extras_entry_failure (p : Location) :
    (∀ e, (∀ ks vs, e ≠ PyExpr.dictExpr ks vs) →
      processKeyword p (some "extras_require", e) =
        ⟨[], [(some "extras_require", e)], none⟩) ∧
    (∀ ks pre v rest, (extract_extras_values p pre).2 = none →
      (∀ elts, v ≠ PyExpr.listExpr elts) →
      processKeyword p (some "extras_require", PyExpr.dictExpr ks (pre ++ v :: rest)) =
        ⟨(extract_extras_values p pre).1, [(some "extras_require", v)], none⟩) := by
  constructor
  · intro e h
    cases e with
    | dictExpr ks vs => exact absurd rfl (h ks vs)
    | constant w => rfl
    | name i => rfl
    | listExpr elts => rfl
    | call f a k => rfl
    | other => rfl
  · intro ks pre v rest hpre hv
    have hmid : extract_extras_values p (v :: rest) =
        ([], some (.depParsingError v)) := by
      rw [extract_extras_values, extract_deps_from_bottom_level_list_not_list p v hv]
    have hall : extract_extras_values p (pre ++ v :: rest) =
        ((extract_extras_values p pre).1, some (.depParsingError v)) := by
      rw [extract_extras_values_append p pre (v :: rest) hpre, hmid]
      simp
    rw [processKeyword_extras_dict, hall]

/-- C6 witness: with `extras_require` values `["x"]` then a non-list entry,
the records of the first value are kept, the offending entry is warned about,
and nothing is raised. -/
theorem c6_extras_entry_failure_witness :
    processKeyword ⟨"setup.py", none⟩ (some "extras_require",
        PyExpr.dictExpr [.constant (.str "a"), .constant (.str "b")]
          ([.listExpr [.constant (.str "x")]] ++ PyExpr.name "v" :: [])) =
      ⟨(extract_extras_values ⟨"setup.py", none⟩ [.listExpr [.constant (.str "x")]]).1,
        [(some "extras_require", PyExpr.name "v")], none⟩ :=
  (c6_extras_entry_failure ⟨"setup.py", none⟩).2
    [.constant (.str "a"), .constant (.str "b")]
    [.listExpr [.constant (.str "x")]] (PyExpr.name "v") [] rfl
    (fun _ h => PyExpr.noConfusion h)

/-- C6 counterexample: in `extras_require={"a": ["x"], "b": v, "c": ["z"]}`
the entry after the offending one is not processed: the parser emits only
`x`, so `z` is missing, contradicting the claim that every other entry of the
same mapping is still processed. -/
theorem c6_counterexample_later_entries_dropped :
    parse_setup_contents
      [.expr (.call (.name "setup") []
        [(some "extras_require", .dictExpr
          [.constant (.str "a"), .constant (.str "b"), .constant (.str "c")]
          [.listExpr [.constant (.str "x")], .name "v",
            .listExpr [.constant (.str "z")]])])]
      ⟨"setup.py", none⟩ =
      ⟨[⟨"x", ⟨"setup.py", none⟩⟩], [(some "extras_require", .name "v")], none⟩ ∧
    ¬ DeclaredDependency.mk "z" ⟨"setup.py", none⟩ ∈
      (parse_setup_contents
        [.expr (.call (.name "setup") []
          [(some "extras_require", .dictExpr
            [.constant (.str "a"), .constant (.str "b"), .constant (.str "c")]
            [.listExpr [.constant (.str "x")], .name "v",
              .listExpr [.constant (.str "z")]])])]
        ⟨"setup.py", none⟩).deps := by
  have h : parse_setup_contents
      [.expr (.call (.name "setup") []
        [(some "extras_require", .dictExpr
          [.constant (.str "a"), .constant (.str "b"), .constant (.str "c")]
          [.listExpr [.constant (.str "x")], .name "v",
            .listExpr [.constant (.str "z")]])])]
      ⟨"setup.py", none⟩ =
      ⟨[⟨"x", ⟨"setup.py", none⟩⟩], [(some "extras_require", .name "v")], none⟩ := by
    simp [parse_setup_contents, bfsFirstSetup, stmtChildren, isSetupExprStmt]
    rfl
  refine ⟨h, ?_⟩
  rw [h]
  decide

theorem extract_deps_elements_no_depParse (p : Location) (elts : List PyExpr) :
    (extract_deps_elements p elts).2 = none ∨
      (extract_deps_elements p elts).2 = some PyExc.typeError := by
  induction elts with
  | nil => exact Or.inl rfl
  | cons e rest ih =>
    cases e with
    | constant w =>
      cases w with
      | str s => simpa [extract_deps_elements] using ih
      | int n => exact Or.inr rfl
      | boolean b => exact Or.inr rfl
      | noneVal => exact Or.inr rfl
    | name i => simpa [extract_deps_elements] using ih
    | listExpr l => simpa [extract_deps_elements] using ih
    | dictExpr ks vs => simpa [extract_deps_elements] using ih
    | call f a k => simpa [extract_deps_elements] using ih
    | other => simpa [extract_deps_elements] using ih

/-- C10 (amended): inside a literal list, every element that is not an
`ast.Constant` node (a variable reference, call, nested list, ...) is skipped
silently — it produces no record and no warning, and the remaining elements
are still parsed; but an element that is a non-string constant (such as a
number literal) is not skipped: it passes the `isinstance` check, is handed
to the requirement parser, and aborts the list extraction with an uncaught
`TypeError` (contrary to the original claim, which said numbers are skipped
silently). -/
theorem c10_nonstring_elements (p : Location) :
    (∀ pre post e, (∀ v, e ≠ PyExpr.constant v) →
      extract_deps_elements p (pre ++ e :: post) = extract_deps_elements p (pre ++ post)) ∧
    (∀ elts, processKeyword p (some "install_requires", PyExpr.listExpr elts) =
      ⟨(extract_deps_elements p elts).1, [], (extract_deps_elements p elts).2⟩) ∧
    (∀ v rest, (∀ s, v ≠ PyLiteral.str s) →
      extract_deps_elements p (PyExpr.constant v :: rest) = ([], some PyExc.typeError)) := by
  refine ⟨?_, ?_, ?_⟩
  · intro pre post e he
    induction pre with
    | nil =>
      rw [List.nil_append, List.nil_append]
      cases e with
      | constant w => exact absurd rfl (he w)
      | name i => rfl
      | listExpr l => rfl
      | dictExpr ks vs => rfl
      | call f a k => rfl
      | other => rfl
    | cons a pre ih =>
      rw [List.cons_append, List.cons_append]
      cases a with
      | constant w =>
        cases w with
        | str s =>
          show (parse_requirements_contents s p ++
              (extract_deps_elements p (pre ++ e :: post)).1,
            (extract_deps_elements p (pre ++ e :: post)).2) = _
          rw [ih]
          rfl
        | int n => rfl
        | boolean b => rfl
        | noneVal => rfl
      | name i => exact ih
      | listExpr l => exact ih
      | dictExpr ks vs => exact ih
      | call f a k => exact ih
      | other => exact ih
  · intro elts
    rw [processKeyword_install]
    rcases hnd : extract_deps_elements p elts with ⟨ds, e⟩
    have hb : extract_deps_from_bottom_level_list p (PyExpr.listExpr elts) = (ds, e) := hnd
    rw [hb]
    have hcase := extract_deps_elements_no_depParse p elts
    rw [hnd] at hcase
    rcases hcase with h | h <;> simp only at h <;> subst h <;> rfl
  · intro v rest hv
    cases v with
    | str s => exact absurd rfl (hv s)
    | int n => rfl
    | boolean b => rfl
    | noneVal => rfl

/-- C10 witness: a variable reference inside an otherwise literal list is
skipped and the surrounding string literals still parse. -/
theorem c10_nonstring_elements_witness :
    extract_deps_elements ⟨"setup.py", none⟩
        ([.constant (.str "a")] ++ PyExpr.name "computed" :: [.constant (.str "b")]) =
      extract_deps_elements ⟨"setup.py", none⟩
        ([.constant (.str "a")] ++ [.constant (.str "b")]) :=
  (c10_nonstring_elements ⟨"setup.py", none⟩).1
    [.constant (.str "a")] [.constant (.str "b")] (PyExpr.name "computed")
    (fun _ h => PyExpr.noConfusion h)

/-- C10 counterexample: `install_requires=[42, "a"]` — the number is an
`ast.Constant`, so it is not skipped; extraction aborts with an uncaught
`TypeError` and even the following string literal `"a"` produces no record,
contradicting the claim that numbers are skipped silently with the remaining
string-literal elements still parsed. -/
theorem c10_counterexample_number_not_skipped :
    parse_setup_contents
      [.expr (.call (.name "setup") []
        [(some "install_requires", .listExpr [.constant (.int 42), .constant (.str "a")])])]
      ⟨"setup.py", none⟩ = ⟨[], [], some PyExc.typeError⟩ ∧
    ¬ DeclaredDependency.mk "a" ⟨"setup.py", none⟩ ∈
      (parse_setup_contents
        [.expr (.call (.name "setup") []
          [(some "install_requires", .listExpr [.constant (.int 42), .constant (.str "a")])])]
        ⟨"setup.py", none⟩).deps := by
  have h : parse_setup_contents
      [.expr (.call (.name "setup") []
        [(some "install_requires", .listExpr [.constant (.int 42), .constant (.str "a")])])]
      ⟨"setup.py", none⟩ = ⟨[], [], some PyExc.typeError⟩ := by
    simp [parse_setup_contents, bfsFirstSetup, stmtChildren, isSetupExprStmt]
    rfl
  exact ⟨h, by rw [h]; decide⟩

/-! ### pyproject.toml parsing (extract_dependencies.py 162-261)

`tomllib.loads` (external; a TOML syntax error is fatal and out of scope) is
modelled by taking the decoded document as input.  Each field parser returns
the records its generator delivers before termination plus the exception, if
any, escaping to the per-field `try`: `KeyError` (logged at debug severity as
a missing field) or the `AttributeError`/`TypeError` group (logged at error
severity as a parse failure) — the two `except` clauses of
`parse_poetry_pyproject_dependencies` and `parse_pep621_pyproject_contents`. -/

/-- A decoded TOML value, as `tomllib.loads` returns it. -/
inductive Toml where
  | str (s : String)
  | int (n : Int)
  | boolean (b : Bool)
  | arr (xs : List Toml)
  | table (kvs : List (String × Toml))

/-- The two exception groups the per-field `except` clauses distinguish:
`KeyError`, and the `AttributeError`/`TypeError` family. -/
inductive TomlErr where
  | keyErr
  | typeErr
deriving DecidableEq

/-- Python subscription `value[key]`: `KeyError` on a mapping without the
key, `TypeError` on a non-mapping. -/
def Toml.sub : Toml → String → Except TomlErr Toml
  | .table kvs, k =>
    match kvs.find? (fun kv => decide (kv.1 = k)) with
    | some kv => .ok kv.2
    | none => .error .keyErr
  | _, _ => .error .typeErr

/-- Python `.keys()`: the keys of a mapping, `AttributeError` otherwise. -/
def Toml.keysOf : Toml → Except TomlErr (List String)
  | .table kvs => .ok (kvs.map Prod.fst)
  | _ => .error .typeErr

/-- Python `.values()`: the values of a mapping, `AttributeError` otherwise. -/
def Toml.valuesOf : Toml → Except TomlErr (List Toml)
  | .table kvs => .ok (kvs.map Prod.snd)
  | _ => .error .typeErr

/-- A generator loop running `f` on each element: records delivered before an
exception stay delivered, and the first exception aborts the remaining
elements. -/
def chainResults {α : Type} (f : α → List DeclaredDependency × Option TomlErr) :
    List α → List DeclaredDependency × Option TomlErr
  | [] => ([], none)
  | x :: rest =>
    match f x with
    | (ds, some e) => (ds, some e)
    | (ds, none) =>
      let r := chainResults f rest
      (ds ++ r.1, r.2)

/-- `parse_requirements_contents(requirement, path)` on one decoded TOML
value: a string is parsed; any other value makes
`pkg_resources.parse_requirements` raise `TypeError` iterating it. -/
def req_string_deps (p : Location) : Toml → List DeclaredDependency × Option TomlErr
  | .str s => (parse_requirements_contents s p, none)
  | _ => ([], some .typeErr)

/-- Body of `parse_main_dependencies` in
`parse_poetry_pyproject_dependencies`: every key of
`poetry_config["dependencies"]` except `"python"` yields one record. -/
def poetry_main_dependencies (cfg : Toml) (p : Location) :
    List DeclaredDependency × Option TomlErr :=
  match cfg.sub "dependencies" with
  | .error e => ([], some e)
  | .ok deps =>
    match deps.keysOf with
    | .error e => ([], some e)
    | .ok keys =>
      ((keys.filter fun k => decide (k ≠ "python")).map
        (fun k => DeclaredDependency.mk k p), none)

/-- One group table of `poetry_config["group"]`: `group["dependencies"]`
(a `KeyError` when the key is missing), every key except `"python"`. -/
def group_table_deps (p : Location) (g : Toml) :
    List DeclaredDependency × Option TomlErr :=
  match g.sub "dependencies" with
  | .error e => ([], some e)
  | .ok d =>
    match d.keysOf with
    | .error e => ([], some e)
    | .ok keys =>
      ((keys.filter fun k => decide (k ≠ "python")).map
        (fun k => DeclaredDependency.mk k p), none)

/-- Body of `parse_group_dependencies`: loop over
`poetry_config["group"].values()`. -/
def poetry_group_dependencies (cfg : Toml) (p : Location) :
    List DeclaredDependency × Option TomlErr :=
  match cfg.sub "group" with
  | .error e => ([], some e)
  | .ok g =>
    match g.valuesOf with
    | .error e => ([], some e)
    | .ok groups => chainResults (group_table_deps p) groups

/-- One value of `poetry_config["extras"]`: a literal list has each element
parsed as a requirement string; a non-list raises `TypeError`. -/
def extra_value_deps (p : Location) : Toml → List DeclaredDependency × Option TomlErr
  | .arr xs => chainResults (req_string_deps p) xs
  | _ => ([], some .typeErr)

/-- Body of `parse_extra_dependencies`: loop over
`poetry_config["extras"].values()`. -/
def poetry_extra_dependencies (cfg : Toml) (p : Location) :
    List DeclaredDependency × Option TomlErr :=
  match cfg.sub "extras" with
  | .error e => ([], some e)
  | .ok ex =>
    match ex.valuesOf with
    | .error e => ([], some e)
    | .ok vals => chainResults (extra_value_deps p) vals

/-- A per-field log entry: the missing-field debug message or the
parse-failure error message, naming the field type. -/
inductive LogEntry where
  | debugFind (field : String)
  | errorParse (field : String)
deriving DecidableEq

/-- The per-field `try`/`except` of the two pyproject extractors: a
`KeyError` logs at debug severity, an `AttributeError`/`TypeError` logs at
error severity; records already delivered stay delivered. -/
def runFieldResult (field : String) (r : List DeclaredDependency × Option TomlErr) :
    List DeclaredDependency × List LogEntry :=
  match r.2 with
  | none => (r.1, [])
  | some .keyErr => (r.1, [.debugFind field])
  | some .typeErr => (r.1, [.errorParse field])

/-- `parse_poetry_pyproject_dependencies`: the three Poetry fields, each
wrapped in its own `try`. -/
def parse_poetry_pyproject_dependencies (cfg : Toml) (p : Location) :
    List DeclaredDependency × List LogEntry :=
  let m := runFieldResult "main" (poetry_main_dependencies cfg p)
  let g := runFieldResult "group" (poetry_group_dependencies cfg p)
  let e := runFieldResult "extra" (poetry_extra_dependencies cfg p)
  (m.1 ++ g.1 ++ e.1, m.2 ++ g.2 ++ e.2)

/-- Body of `parse_main_dependencies` in `parse_pep621_pyproject_contents`:
`parsed_contents["project"]["dependencies"]` must be a list of requirement
strings. -/
def pep621_main_dependencies (parsed : Toml) (p : Location) :
    List DeclaredDependency × Option TomlErr :=
  match parsed.sub "project" with
  | .error e => ([], some e)
  | .ok proj =>
    match proj.sub "dependencies" with
    | .error e => ([], some e)
    | .ok (.arr xs) => chainResults (req_string_deps p) xs
    | .ok _ => ([], some .typeErr)

/-- One group of `parsed_contents["project"]["optional-dependencies"]`:
`for requirement in group` iterates a list's elements, a string's characters,
or a mapping's keys (Python iteration), and raises `TypeError` otherwise. -/
def pep621_group_reqs (p : Location) : Toml → List DeclaredDependency × Option TomlErr
  | .arr xs => chainResults (req_string_deps p) xs
  | .str s => ((s.data.map fun c => parse_requirements_contents (String.mk [c]) p).flatten, none)
  | .table kvs => ((kvs.map fun kv => parse_requirements_contents kv.1 p).flatten, none)
  | _ => ([], some .typeErr)

/-- Body of `parse_optional_dependencies`: loop over
`parsed_contents["project"]["optional-dependencies"].values()`. -/
def pep621_optional_dependencies (parsed : Toml) (p : Location) :
    List DeclaredDependency × Option TomlErr :=
  match parsed.sub "project" with
  | .error e => ([], some e)
  | .ok proj =>
    match proj.sub "optional-dependencies" with
    | .error e => ([], some e)
    | .ok od =>
      match od.valuesOf with
      | .error e => ([], some e)
      | .ok vals => chainResults (pep621_group_reqs p) vals

/-- `parse_pep621_pyproject_contents`: the two PEP 621 fields, each wrapped
in its own `try`. -/
def parse_pep621_pyproject_contents (parsed : Toml) (p : Location) :
    List DeclaredDependency × List LogEntry :=
  let m := runFieldResult "main" (pep621_main_dependencies parsed p)
  let o := runFieldResult "optional" (pep621_optional_dependencies parsed p)
  (m.1 ++ o.1, m.2 ++ o.2)

theorem chainResults_append {α : Type} (f : α → List DeclaredDependency × Option TomlErr)
    (a b : List α) (h : (chainResults f a).2 = none) :
    chainResults f (a ++ b) =
      ((chainResults f a).1 ++ (chainResults f b).1, (chainResults f b).2) := by
  induction a with
  | nil => simp [chainResults]
  | cons x a ih =>
    rw [List.cons_append]
    rw [chainResults] at h
    rw [chainResults]
    conv_rhs => rw [chainResults]
    rcases hx : f x with ⟨ds, e⟩
    cases e with
    | some e' =>
      rw [hx] at h
      simp at h
    | none =>
      rw [hx] at h
      simp only at h ⊢
      rw [ih h]
      simp

theorem chainResults_cons_of_error {α : Type}
    (f : α → List DeclaredDependency × Option TomlErr) (x : α) (rest : List α)
    (ds : List DeclaredDependency) (e : TomlErr) (hx : f x = (ds, some e)) :
    chainResults f (x :: rest) = (ds, some e) := by
  rw [chainResults, hx]

theorem runFieldResult_mem (field : String)
    (r : List DeclaredDependency × Option TomlErr) (x : LogEntry)
    (h : x ∈ (runFieldResult field r).2) :
    x = LogEntry.debugFind field ∨ x = LogEntry.errorParse field := by
  rcases r with ⟨ds, e⟩
  cases e with
  | none => simp [runFieldResult] at h
  | some err =>
    cases err with
    | keyErr =>
      simp [runFieldResult] at h
      exact Or.inl h
    | typeErr =>
      simp [runFieldResult] at h
      exact Or.inr h

theorem runFieldResult_deps (field : String)
    (r : List DeclaredDependency × Option TomlErr) :
    (runFieldResult field r).1 = r.1 := by
  rcases r with ⟨ds, e⟩
  cases e with
  | none => rfl
  | some err => cases err <;> rfl

/-- C8: for every decoded pyproject whose `tool.poetry.dependencies` value is
a mapping, every key except the literal `"python"` yields exactly one
`DeclaredDependency` named by the key, the field raises nothing, and
`"python"` never yields a record. -/
theorem c8_poetry_python_excluded (cfg : Toml) (p : Location)
    (kvs : List (String × Toml))
    (h : Toml.sub cfg "dependencies" = .ok (.table kvs)) :
    (poetry_main_dependencies cfg p).1 =
      ((kvs.map Prod.fst).filter fun k => decide (k ≠ "python")).map
        (fun k => DeclaredDependency.mk k p) ∧
    (poetry_main_dependencies cfg p).2 = none ∧
    ¬ "python" ∈ (poetry_main_dependencies cfg p).1.map (·.name) := by
  have h1 : poetry_main_dependencies cfg p =
      (((kvs.map Prod.fst).filter fun k => decide (k ≠ "python")).map
        (fun k => DeclaredDependency.mk k p), none) := by
    simp only [poetry_main_dependencies, h, Toml.keysOf]
  refine ⟨by rw [h1], by rw [h1], ?_⟩
  rw [h1]
  have h2 : ((((kvs.map Prod.fst).filter fun k => decide (k ≠ "python")).map
      (fun k => DeclaredDependency.mk k p)).map (·.name)) =
      (kvs.map Prod.fst).filter fun k => decide (k ≠ "python") := by
    rw [List.map_map]
    exact List.map_id _
  show ¬ "python" ∈ (((kvs.map Prod.fst).filter fun k => decide (k ≠ "python")).map
      (fun k => DeclaredDependency.mk k p)).map (·.name)
  rw [h2]
  intro hmem
  rw [List.mem_filter] at hmem
  simp at hmem

/-- C8 witness: a `tool.poetry.dependencies` table with keys `python` and
`requests` yields exactly one dependency, `requests`. -/
theorem c8_poetry_python_excluded_witness :
    (poetry_main_dependencies
      (.table [("dependencies",
        .table [("python", .str "^3.8"), ("requests", .str "^2")])])
      ⟨"pyproject.toml", none⟩).1 =
      (([("python", Toml.str "^3.8"), ("requests", Toml.str "^2")].map
          Prod.fst).filter fun k => decide (k ≠ "python")).map
        (fun k => DeclaredDependency.mk k ⟨"pyproject.toml", none⟩) :=
  (c8_poetry_python_excluded
    (.table [("dependencies",
      .table [("python", .str "^3.8"), ("requests", .str "^2")])])
    ⟨"pyproject.toml", none⟩
    [("python", .str "^3.8"), ("requests", .str "^2")] rfl).1

/-- C9: when one table of `tool.poetry.group` lacks a `dependencies` key, the
`KeyError` aborts the whole group field: records of earlier groups are kept,
nothing of the failing or later groups is emitted, and the field is logged as
a missing field (debug), not as a shape error. -/
theorem c9_group_missing_key_aborts_field (cfg : Toml) (p : Location)
    (gpre : List (String × Toml)) (gname : String) (gbad : Toml)
    (gpost : List (String × Toml))
    (hg : Toml.sub cfg "group" = .ok (.table (gpre ++ (gname, gbad) :: gpost)))
    (hpre : (chainResults (group_table_deps p) (gpre.map Prod.snd)).2 = none)
    (hbad : Toml.sub gbad "dependencies" = .error .keyErr) :
    poetry_group_dependencies cfg p =
      ((chainResults (group_table_deps p) (gpre.map Prod.snd)).1,
        some TomlErr.keyErr) ∧
    (parse_poetry_pyproject_dependencies cfg p).1 =
      (poetry_main_dependencies cfg p).1 ++
        (chainResults (group_table_deps p) (gpre.map Prod.snd)).1 ++
        (poetry_extra_dependencies cfg p).1 ∧
    LogEntry.debugFind "group" ∈ (parse_poetry_pyproject_dependencies cfg p).2 ∧
    ¬ LogEntry.errorParse "group" ∈ (parse_poetry_pyproject_dependencies cfg p).2 := by
  have hbadg : group_table_deps p gbad = ([], some TomlErr.keyErr) := by
    rw [group_table_deps, hbad]
  have hgd : poetry_group_dependencies cfg p =
      ((chainResults (group_table_deps p) (gpre.map Prod.snd)).1,
        some TomlErr.keyErr) := by
    simp only [poetry_group_dependencies, hg, Toml.valuesOf]
    rw [List.map_append, List.map_cons, chainResults_append _ _ _ hpre,
      chainResults_cons_of_error _ _ _ _ _ hbadg]
    simp
  have hrun : runFieldResult "group" (poetry_group_dependencies cfg p) =
      ((chainResults (group_table_deps p) (gpre.map Prod.snd)).1,
        [LogEntry.debugFind "group"]) := by
    rw [hgd]
    rfl
  refine ⟨hgd, ?_, ?_, ?_⟩
  · show (runFieldResult "main" (poetry_main_dependencies cfg p)).1 ++
        (runFieldResult "group" (poetry_group_dependencies cfg p)).1 ++
        (runFieldResult "extra" (poetry_extra_dependencies cfg p)).1 = _
    rw [hrun, runFieldResult_deps, runFieldResult_deps]
  · show LogEntry.debugFind "group" ∈
        (runFieldResult "main" (poetry_main_dependencies cfg p)).2 ++
        (runFieldResult "group" (poetry_group_dependencies cfg p)).2 ++
        (runFieldResult "extra" (poetry_extra_dependencies cfg p)).2
    rw [hrun]
    simp
  · show ¬ LogEntry.errorParse "group" ∈
        (runFieldResult "main" (poetry_main_dependencies cfg p)).2 ++
        (runFieldResult "group" (poetry_group_dependencies cfg p)).2 ++
        (runFieldResult "extra" (poetry_extra_dependencies cfg p)).2
    rw [hrun]
    intro hmem
    rcases List.mem_append.mp hmem with hmem | hmem
    · rcases List.mem_append.mp hmem with hmem | hmem
      · rcases runFieldResult_mem _ _ _ hmem with h' | h' <;> simp at h'
      · simp at hmem
    · rcases runFieldResult_mem _ _ _ hmem with h' | h' <;> simp at h'

/-- C9 witness: groups `dev` (well-formed, a `black` dependency) followed by
`bad` (no `dependencies` key) and `late` (well-formed): only `black` is
emitted, the field logs the missing-field debug message and no parse error. -/
theorem c9_group_missing_key_aborts_field_witness :
    poetry_group_dependencies
      (.table [("group", .table
        [("dev", .table [("dependencies", .table [("black", .str "*")])]),
         ("bad", .table [("lock", .str "*")]),
         ("late", .table [("dependencies", .table [("isort", .str "*")])])])])
      ⟨"pyproject.toml", none⟩ =
      ((chainResults (group_table_deps ⟨"pyproject.toml", none⟩)
        ([("dev", Toml.table [("dependencies", Toml.table [("black", Toml.str "*")])])].map
          Prod.snd)).1, some TomlErr.keyErr) :=
  (c9_group_missing_key_aborts_field
    (.table [("group", .table
      [("dev", .table [("dependencies", .table [("black", .str "*")])]),
       ("bad", .table [("lock", .str "*")]),
       ("late", .table [("dependencies", .table [("isort", .str "*")])])])])
    ⟨"pyproject.toml", none⟩
    [("dev", .table [("dependencies", .table [("black", .str "*")])])]
    "bad" (.table [("lock", .str "*")])
    [("late", .table [("dependencies", .table [("isort", .str "*")])])]
    rfl rfl rfl).1

/-- C7 (amended): in pyproject extraction an absent field is not an error: it
logs at debug severity and every sibling field is still extracted; a field
that is present but of the wrong shape logs at error severity and drops the
field's results from the malformed value onward — records the same field
delivered before reaching the malformed value are kept, contrary to the
original claim that exactly the whole field is dropped — while every sibling
field is still extracted; the extraction functions are total, so a malformed
field never aborts the whole file. -/
theorem c7_field_errors_isolated :
    (∀ cfg p, Toml.sub cfg "group" = .error TomlErr.keyErr →
      poetry_group_dependencies cfg p = ([], some TomlErr.keyErr) ∧
      (parse_poetry_pyproject_dependencies cfg p).1 =
        (poetry_main_dependencies cfg p).1 ++ (poetry_extra_dependencies cfg p).1 ∧
      LogEntry.debugFind "group" ∈ (parse_poetry_pyproject_dependencies cfg p).2) ∧
    (∀ parsed p proj d, Toml.sub parsed "project" = .ok proj →
      Toml.sub proj "dependencies" = .ok d → (∀ xs, d ≠ Toml.arr xs) →
      pep621_main_dependencies parsed p = ([], some TomlErr.typeErr) ∧
      (parse_pep621_pyproject_contents parsed p).1 =
        (pep621_optional_dependencies parsed p).1 ∧
      LogEntry.errorParse "main" ∈ (parse_pep621_pyproject_contents parsed p).2) ∧
    (∀ p pre v rest, (chainResults (extra_value_deps p) pre).2 = none →
      (∀ xs, v ≠ Toml.arr xs) →
      chainResults (extra_value_deps p) (pre ++ v :: rest) =
        ((chainResults (extra_value_deps p) pre).1, some TomlErr.typeErr)) ∧
    (∀ cfg p, (parse_poetry_pyproject_dependencies cfg p).1 =
      (poetry_main_dependencies cfg p).1 ++ (poetry_group_dependencies cfg p).1 ++
        (poetry_extra_dependencies cfg p).1) := by
  refine ⟨?_, ?_, ?_, ?_⟩
  · intro cfg p hg
    have hgd : poetry_group_dependencies cfg p = ([], some TomlErr.keyErr) := by
      simp only [poetry_group_dependencies, hg]
    have hrun : runFieldResult "group" (poetry_group_dependencies cfg p) =
        ([], [LogEntry.debugFind "group"]) := by
      rw [hgd]
      rfl
    refine ⟨hgd, ?_, ?_⟩
    · show (runFieldResult "main" (poetry_main_dependencies cfg p)).1 ++
          (runFieldResult "group" (poetry_group_dependencies cfg p)).1 ++
          (runFieldResult "extra" (poetry_extra_dependencies cfg p)).1 = _
      rw [hrun, runFieldResult_deps, runFieldResult_deps]
      simp
    · show LogEntry.debugFind "group" ∈
          (runFieldResult "main" (poetry_main_dependencies cfg p)).2 ++
          (runFieldResult "group" (poetry_group_dependencies cfg p)).2 ++
          (runFieldResult "extra" (poetry_extra_dependencies cfg p)).2
      rw [hrun]
      simp
  · intro parsed p proj d hproj hdeps hd
    have hmain : pep621_main_dependencies parsed p = ([], some TomlErr.typeErr) := by
      cases d with
      | arr xs => exact absurd rfl (hd xs)
      | str s => simp only [pep621_main_dependencies, hproj, hdeps]
      | int n => simp only [pep621_main_dependencies, hproj, hdeps]
      | boolean b => simp only [pep621_main_dependencies, hproj, hdeps]
      | table kvs => simp only [pep621_main_dependencies, hproj, hdeps]
    have hrun : runFieldResult "main" (pep621_main_dependencies parsed p) =
        ([], [LogEntry.errorParse "main"]) := by
      rw [hmain]
      rfl
    refine ⟨hmain, ?_, ?_⟩
    · show (runFieldResult "main" (pep621_main_dependencies parsed p)).1 ++
          (runFieldResult "optional" (pep621_optional_dependencies parsed p)).1 = _
      rw [hrun, runFieldResult_deps]
      simp
    · show LogEntry.errorParse "main" ∈
          (runFieldResult "main" (pep621_main_dependencies parsed p)).2 ++
          (runFieldResult "optional" (pep621_optional_dependencies parsed p)).2
      rw [hrun]
      simp
  · intro p pre v rest hpre hv
    have hvv : extra_value_deps p v = ([], some TomlErr.typeErr) := by
      cases v with
      | arr xs => exact absurd rfl (hv xs)
      | str s => rfl
      | int n => rfl
      | boolean b => rfl
      | table kvs => rfl
    rw [chainResults_append _ _ _ hpre, chainResults_cons_of_error _ _ _ _ _ hvv]
    simp
  · intro cfg p
    show (runFieldResult "main" (poetry_main_dependencies cfg p)).1 ++
        (runFieldResult "group" (poetry_group_dependencies cfg p)).1 ++
        (runFieldResult "extra" (poetry_extra_dependencies cfg p)).1 = _
    rw [runFieldResult_deps, runFieldResult_deps, runFieldResult_deps]

/-- C7 witness: with `tool.poetry.dependencies` present and no
`tool.poetry.group`, the group field logs the debug missing-field message and
the sibling fields are still extracted. -/
theorem c7_field_errors_isolated_witness :
    poetry_group_dependencies
        (.table [("dependencies", .table [("requests", .str "^2")])])
        ⟨"pyproject.toml", none⟩ = ([], some TomlErr.keyErr) ∧
    (parse_poetry_pyproject_dependencies
        (.table [("dependencies", .table [("requests", .str "^2")])])
        ⟨"pyproject.toml", none⟩).1 =
      (poetry_main_dependencies
        (.table [("dependencies", .table [("requests", .str "^2")])])
        ⟨"pyproject.toml", none⟩).1 ++
      (poetry_extra_dependencies
        (.table [("dependencies", .table [("requests", .str "^2")])])
        ⟨"pyproject.toml", none⟩).1 ∧
    LogEntry.debugFind "group" ∈ (parse_poetry_pyproject_dependencies
        (.table [("dependencies", .table [("requests", .str "^2")])])
        ⟨"pyproject.toml", none⟩).2 :=
  c7_field_errors_isolated.1
    (.table [("dependencies", .table [("requests", .str "^2")])])
    ⟨"pyproject.toml", none⟩ rfl

/-- C7 counterexample: with `tool.poetry.extras = {"a": ["pkg1"], "b": 42}`
the `extras` field is malformed at its second value, yet the record `pkg1`
delivered by the first value is kept in the output, contradicting the claim
that exactly that field's results are dropped. -/
theorem c7_counterexample_partial_field_kept :
    parse_poetry_pyproject_dependencies
      (.table [("dependencies", .table [("requests", .str "^2")]),
        ("extras", .table [("a", .arr [.str "pkg1"]), ("b", .int 42)])])
      ⟨"pyproject.toml", none⟩ =
      ([⟨"requests", ⟨"pyproject.toml", none⟩⟩, ⟨"pkg1", ⟨"pyproject.toml", none⟩⟩],
        [LogEntry.debugFind "group", LogEntry.errorParse "extra"]) ∧
    DeclaredDependency.mk "pkg1" ⟨"pyproject.toml", none⟩ ∈
      (parse_poetry_pyproject_dependencies
        (.table [("dependencies", .table [("requests", .str "^2")]),
          ("extras", .table [("a", .arr [.str "pkg1"]), ("b", .int 42)])])
        ⟨"pyproject.toml", none⟩).1 := by
  constructor
  · rfl
  · decide

end FawltyDeps
